import Mathlib

/-!
Verification of `src/app/api/getgitcommit/route.ts`: a webhook handler that
fetches commit or branch metadata from the GitHub API and forwards a
formatted commit list to a downstream Notion-calendar endpoint.

The TypeScript source is shallowly embedded here.  Network effects are
modelled by a `World` record that fixes the response of every outbound
endpoint, and every function additionally returns the ordered list of
outbound HTTP calls it performs (`OutCall` trace).  JavaScript `undefined`
for environment variables is `Option String`; JS truthiness on those values
and template-literal interpolation are embedded explicitly.
-/

/-- `interface CommitFile` from the source: one file entry of a commit. -/
structure CommitFile where
  filename : String
  additions : Nat
  deletions : Nat
  changes : Nat
  patch : Option String
deriving DecidableEq, Repr

/-- The `commit.author` object of a GitHub commit-detail response. -/
structure CommitAuthor where
  name : String
  date : String
deriving DecidableEq, Repr

/-- The `commit` object of a GitHub commit-detail response. -/
structure CommitInfo where
  author : CommitAuthor
  message : String
deriving DecidableEq, Repr

/-- The raw GitHub per-SHA commit-detail response body, as destructured by
`getCommit`: `{ sha, commit: { author, message }, files }`. -/
structure CommitDetailRaw where
  sha : String
  commit : CommitInfo
  files : List CommitFile
deriving DecidableEq, Repr

/-- The object `getCommit` actually builds per commit:
`{ sha, author: author.name, date: author.date, message, files }`. -/
structure CommitDetail where
  sha : String
  author : String
  date : String
  message : String
  files : List CommitFile
deriving DecidableEq, Repr

/-- A commit stub from the commit-list response; the code reads only `sha`. -/
structure CommitStub where
  sha : String
deriving DecidableEq, Repr

/-- A branch object from the branches response; the code reads only `name`. -/
structure BranchInfo where
  name : String
deriving DecidableEq, Repr

/-- `interface BranchOnlyResult` from the source. -/
structure BranchOnlyResult where
  branches : List String
deriving DecidableEq, Repr

/-- The four environment variables read at module scope. `none` models an
unset variable (JS `undefined`). -/
structure Env where
  GITHUB_REPO_OWNER : Option String
  GITHUB_REPO_NAME : Option String
  GITHUB_TOKEN : Option String
  BASE_URL : Option String
deriving DecidableEq, Repr

/-- JS truthiness test `!x` on a `string | undefined` value: `undefined` and
the empty string are falsy, every other string is truthy. -/
def optFalsy : Option String → Bool
  | none => true
  | some s => s.isEmpty

/-- JS template-literal interpolation of a `string | undefined` value:
`undefined` stringifies to the text "undefined". -/
def jsTemplateOpt : Option String → String
  | none => "undefined"
  | some s => s

/-- The module-scope constant
`` `${process.env.BASE_URL}/api/updatenotioncalendar` ``. -/
def notionUpdateApiUrl (env : Env) : String :=
  jsTemplateOpt env.BASE_URL ++ "/api/updatenotioncalendar"

/-- The commit-list URL `` `https://api.github.com/repos/${owner}/${repo}/commits` ``. -/
def commitsUrl (env : Env) : String :=
  "https://api.github.com/repos/" ++ jsTemplateOpt env.GITHUB_REPO_OWNER ++ "/"
    ++ jsTemplateOpt env.GITHUB_REPO_NAME ++ "/commits"

/-- The branches URL `` `https://api.github.com/repos/${owner}/${repo}/branches` ``. -/
def branchesUrl (env : Env) : String :=
  "https://api.github.com/repos/" ++ jsTemplateOpt env.GITHUB_REPO_OWNER ++ "/"
    ++ jsTemplateOpt env.GITHUB_REPO_NAME ++ "/branches"

/-- The per-SHA commit-detail URL. -/
def commitDetailUrl (env : Env) (sha : String) : String :=
  commitsUrl env ++ "/" ++ sha

/-- Left-pad a natural number to 2 decimal digits. -/
def pad2 (n : Nat) : String :=
  if n < 10 then "0" ++ toString n else toString n

/-- Left-pad a natural number to 3 decimal digits. -/
def pad3 (n : Nat) : String :=
  if n < 10 then "00" ++ toString n
  else if n < 100 then "0" ++ toString n
  else toString n

/-- Left-pad a natural number to 4 decimal digits. -/
def pad4 (n : Nat) : String :=
  if n < 10 then "000" ++ toString n
  else if n < 100 then "00" ++ toString n
  else if n < 1000 then "0" ++ toString n
  else toString n

/-- Left-pad a natural number to 6 decimal digits (JS extended years). -/
def pad6 (n : Nat) : String :=
  if n < 10 then "00000" ++ toString n
  else if n < 100 then "0000" ++ toString n
  else if n < 1000 then "000" ++ toString n
  else if n < 10000 then "00" ++ toString n
  else if n < 100000 then "0" ++ toString n
  else toString n

/-- Proleptic-Gregorian conversion from a day count since 1970-01-01 to
`(year, month, day)`, the date decomposition used by `Date.toISOString`. -/
def civilFromDays (z0 : Int) : Int × Nat × Nat :=
  let z : Int := z0 + 719468
  let era : Int := Int.fdiv z 146097
  let doe : Nat := (z - era * 146097).toNat
  let yoe : Nat := (doe - doe / 1460 + doe / 36524 - doe / 146096) / 365
  let y : Int := (yoe : Int) + era * 400
  let doy : Nat := doe - (365 * yoe + yoe / 4 - yoe / 100)
  let mp : Nat := (5 * doy + 2) / 153
  let d : Nat := doy - (153 * mp + 2) / 5 + 1
  let m : Nat := if mp < 10 then mp + 3 else mp - 9
  (if m ≤ 2 then y + 1 else y, m, d)

/-- Embedding of ECMAScript `Date.prototype.toISOString` on a time value in
milliseconds since the epoch: `YYYY-MM-DDTHH:mm:ss.sssZ`, with the extended
`±YYYYYY` form outside years 0–9999. -/
def toISOString (t : Int) : String :=
  let days : Int := Int.fdiv t 86400000
  let tod : Nat := (t - days * 86400000).toNat
  let ymd := civilFromDays days
  let y := ymd.1
  let m := ymd.2.1
  let d := ymd.2.2
  let yearStr : String :=
    if 0 ≤ y then
      if y ≤ 9999 then pad4 y.toNat else "+" ++ pad6 y.toNat
    else "-" ++ pad6 (-y).toNat
  yearStr ++ "-" ++ pad2 m ++ "-" ++ pad2 d ++ "T"
    ++ pad2 (tod / 3600000) ++ ":" ++ pad2 (tod / 60000 % 60) ++ ":"
    ++ pad2 (tod / 1000 % 60) ++ "." ++ pad3 (tod % 1000) ++ "Z"

/-- `getISOTimeFiveMinutesAgo`: `new Date(Date.now() - 5 * 60 * 1000)`
rendered with `toISOString`.  `now` is the current time in milliseconds. -/
def getISOTimeFiveMinutesAgo (now : Int) : String :=
  toISOString (now - 5 * 60 * 1000)

deriving instance DecidableEq for Except

/-- An axios request failure: either an HTTP error response (status and
status text available on `error.response`) or a response-less failure. -/
inductive FetchError where
  | httpError (status : Nat) (statusText : String)
  | networkError (msg : String)
deriving DecidableEq, Repr

/-- One outbound HTTP call made by the handler, in issue order. -/
inductive OutCall where
  | commitListCall (url : String) (since : String)
  | branchListCall (url : String)
  | commitDetailCall (url : String)
  | notionPostCall (url : String) (body : List CommitDetail)
deriving DecidableEq, Repr

/-- The network environment of one request: the response each outbound
endpoint would produce.  The downstream Notion response body is kept as an
opaque blob (`String`), since the handler only echoes it. -/
structure World where
  commitList : Except FetchError (List CommitStub)
  commitDetail : String → Except FetchError CommitDetailRaw
  branchList : Except FetchError (List BranchInfo)
  notionPost : Except FetchError String

/-- The body of a `NextResponse.json` call, one constructor per object shape
the source constructs. -/
inductive Body where
  | errorObj (error : String)
  | messageObj (message : String)
  | branchesObj (branches : List String)
  | pushSuccessObj (message : String) (notionResponse : String)
      (commits : List CommitDetail)
  | commitsArr (commits : List CommitDetail)
deriving DecidableEq, Repr

/-- An HTTP response produced by the handler. -/
structure Response where
  status : Nat
  body : Body
deriving DecidableEq, Repr

/-- Collect a list of `Except` results into one, failing on the first error:
the aggregation behaviour of `Promise.all` over already-settled results. -/
def collectExcept {ε α : Type} : List (Except ε α) → Except ε (List α)
  | [] => .ok []
  | x :: xs =>
    match x with
    | .error e => .error e
    | .ok v =>
      match collectExcept xs with
      | .error e => .error e
      | .ok vs => .ok (v :: vs)

/-- The per-file mapping inside `getCommit`: rebuilds each file entry as
`{ filename, additions, deletions, changes, patch }`. -/
def formatFile (f : CommitFile) : CommitFile :=
  { filename := f.filename
    additions := f.additions
    deletions := f.deletions
    changes := f.changes
    patch := f.patch }

/-- The per-commit mapping inside `getCommit`: destructures the detail
response and builds `{ sha, author: author.name, date: author.date, message,
files: formattedFiles }`. -/
def formatDetail (r : CommitDetailRaw) : CommitDetail :=
  { sha := r.sha
    author := r.commit.author.name
    date := r.commit.author.date
    message := r.commit.message
    files := r.files.map formatFile }

/-- The `Promise.all(commits.map ...)` fan-out of `getCommit`: all per-SHA
detail requests are issued (one trace entry per stub, in list order) and the
settled results are aggregated, rejecting on any failure. -/
def fetchDetails (env : Env) (w : World) (stubs : List CommitStub) :
    Except FetchError (List CommitDetail) × List OutCall :=
  ( collectExcept (stubs.map fun s => (w.commitDetail s.sha).map formatDetail)
  , stubs.map fun s => OutCall.commitDetailCall (commitDetailUrl env s.sha) )

/-- `getCommit(includeDetails)`: lists commits since the 5-minute cutoff,
then either lists branches (`includeDetails = false`) or fan-out fetches
every commit's detail.  The `try/catch` in the source logs and rethrows, so
every upstream failure propagates unchanged. -/
def getCommit (env : Env) (w : World) (now : Int) (includeDetails : Bool) :
    Except FetchError (List CommitDetail ⊕ BranchOnlyResult) × List OutCall :=
  let since := getISOTimeFiveMinutesAgo now
  let url := commitsUrl env
  match w.commitList with
  | .error e => (.error e, [.commitListCall url since])
  | .ok commits =>
    if !includeDetails then
      match w.branchList with
      | .error e =>
          (.error e, [.commitListCall url since, .branchListCall (branchesUrl env)])
      | .ok bs =>
          ( .ok (.inr ⟨bs.map (·.name)⟩)
          , [.commitListCall url since, .branchListCall (branchesUrl env)] )
    else
      let r := fetchDetails env w commits
      (r.1.map .inl, .commitListCall url since :: r.2)

/-- `updateCommit`: posts the commit list downstream; on success returns 200
with the confirmation object, on an axios error with a response relays its
status and status text, otherwise returns a generic 500. -/
def updateCommit (env : Env) (w : World) (commitDetails : List CommitDetail) :
    Response × List OutCall :=
  let call := OutCall.notionPostCall (notionUpdateApiUrl env) commitDetails
  match w.notionPost with
  | .ok data =>
      ( ⟨200, .pushSuccessObj "Commits processed and sent to Notion API" data commitDetails⟩
      , [call] )
  | .error (.httpError s st) => (⟨s, .errorObj st⟩, [call])
  | .error (.networkError _) => (⟨500, .errorObj "Internal Server Error"⟩, [call])

/-- The TypeScript cast `commitDetails as CommitDetail[]` on the union
returned by `getCommit`.  The cast is a no-op type assertion; the `.inr`
branch is unreachable on the push path (`getCommit_true_not_inr` below). -/
def castToDetails : List CommitDetail ⊕ BranchOnlyResult → List CommitDetail
  | .inl l => l
  | .inr _ => []

/-- The `POST` handler.  The result is `Except FetchError Response`: a
`.error` models an exception escaping the handler as an unhandled rejection
(the dispatcher has no `try/catch` around `getCommit`).  The trace lists the
outbound calls made, in order. -/
def POST (env : Env) (w : World) (now : Int) (eventType : Option String) :
    Except FetchError Response × List OutCall :=
  if optFalsy env.GITHUB_REPO_OWNER || optFalsy env.GITHUB_REPO_NAME
      || optFalsy env.GITHUB_TOKEN || (notionUpdateApiUrl env).isEmpty then
    (.ok ⟨500, .errorObj "Environment variables not set correctly."⟩, [])
  else if eventType = some "push" then
    match getCommit env w now true with
    | (.error e, calls) => (.error e, calls)
    | (.ok r, calls) =>
      let u := updateCommit env w (castToDetails r)
      (.ok u.1, calls ++ u.2)
  else if eventType = some "getBranch" then
    match getCommit env w now false with
    | (.error e, calls) => (.error e, calls)
    | (.ok (.inr b), calls) => (.ok ⟨200, .branchesObj b.branches⟩, calls)
    | (.ok (.inl l), calls) => (.ok ⟨200, .commitsArr l⟩, calls)
  else
    (.ok ⟨400, .messageObj "Event not supported"⟩, [])

/-! ## Helper lemmas -/

/-- A string distinct from the empty literal is not `isEmpty`. -/
theorem isEmpty_eq_false_of_ne (s : String) (hs : s ≠ "") : s.isEmpty = false := by
  have h : ¬ s.isEmpty = true := by rw [String.isEmpty_iff]; exact hs
  simpa using h

/-- The downstream URL constant is a non-empty string for every environment,
because the template always appends the literal path suffix. -/
theorem notionUpdateApiUrl_isEmpty_false (env : Env) :
    (notionUpdateApiUrl env).isEmpty = false := by
  have h : ¬ (notionUpdateApiUrl env).isEmpty = true := by
    rw [String.isEmpty_iff]
    intro h
    have h2 := congrArg String.length h
    unfold notionUpdateApiUrl at h2
    simp [String.length_append] at h2
    exact absurd h2.2 (by decide)
  simpa using h

/-- A set, non-empty environment value is truthy. -/
theorem optFalsy_some_eq_false (s : String) (hs : s ≠ "") :
    optFalsy (some s) = false := by
  simpa [optFalsy] using isEmpty_eq_false_of_ne s hs

/-- `getCommit` always issues the commit-list request first. -/
theorem getCommit_trace_head (env : Env) (w : World) (now : Int) (b : Bool) :
    ∃ rest, (getCommit env w now b).2
      = OutCall.commitListCall (commitsUrl env) (getISOTimeFiveMinutesAgo now) :: rest := by
  unfold getCommit
  cases hw : w.commitList with
  | error e => exact ⟨[], rfl⟩
  | ok commits =>
    cases b with
    | false =>
      cases hb : w.branchList with
      | error e => exact ⟨_, rfl⟩
      | ok bs => exact ⟨_, rfl⟩
    | true => exact ⟨_, rfl⟩

/-- When all three GitHub configuration values are truthy, the environment
gate of `POST` does not fire, and on a push event the commit-list request is
issued. -/
theorem POST_push_trace_head (env : Env) (w : World) (now : Int)
    (ho : optFalsy env.GITHUB_REPO_OWNER = false)
    (hr : optFalsy env.GITHUB_REPO_NAME = false)
    (ht : optFalsy env.GITHUB_TOKEN = false) :
    ∃ rest, (POST env w now (some "push")).2
      = OutCall.commitListCall (commitsUrl env) (getISOTimeFiveMinutesAgo now) :: rest := by
  obtain ⟨rest, hrest⟩ := getCommit_trace_head env w now true
  unfold POST
  simp only [ho, hr, ht, notionUpdateApiUrl_isEmpty_false env, Bool.or_self, Bool.or_false,
    Bool.false_or, if_false, if_pos rfl, reduceIte]
  cases hg : getCommit env w now true with
  | mk res calls =>
    rw [hg] at hrest
    cases res with
    | error e => exact ⟨rest, hrest⟩
    | ok r =>
      have hc : calls
          = OutCall.commitListCall (commitsUrl env) (getISOTimeFiveMinutesAgo now) :: rest :=
        hrest
      exact ⟨rest ++ (updateCommit env w (castToDetails r)).2, by rw [hc]; simp⟩

/-! ## Claim theorems -/

/-- A fixed benign network environment used for concrete evaluations. -/
def w0 : World :=
  { commitList := .ok []
    commitDetail := fun _ => .error (.networkError "unreachable")
    branchList := .ok []
    notionPost := .ok "ok" }

/-- C1 counterexample: with owner, repo and token set but `BASE_URL` unset,
`POST` does not return the misconfiguration response with an empty trace —
it proceeds and makes outbound calls, refuting the claim for the fourth
configuration value. -/
theorem postBaseUrlUnsetNotRejected :
    ¬ (POST ⟨some "o", some "r", some "t", none⟩ w0 0 (some "getBranch")
        = (.ok ⟨500, .errorObj "Environment variables not set correctly."⟩, [])) := by
  decide

/-- C1 (amended): for every request in which any of the three GitHub
configuration values (owner, repository name, token) is missing or empty,
`POST` returns exactly `{error: "Environment variables not set correctly."}`
with status 500 and performs zero outbound calls; the downstream base URL
can never trigger this error, since the URL built from it is always a
non-empty string. -/
theorem postEnvGateRejects (env : Env) (w : World) (now : Int) (ev : Option String)
    (h : optFalsy env.GITHUB_REPO_OWNER = true ∨ optFalsy env.GITHUB_REPO_NAME = true
      ∨ optFalsy env.GITHUB_TOKEN = true) :
    POST env w now ev
      = (.ok ⟨500, .errorObj "Environment variables not set correctly."⟩, [])
    ∧ (notionUpdateApiUrl env).isEmpty = false := by
  refine ⟨?_, notionUpdateApiUrl_isEmpty_false env⟩
  unfold POST
  rcases h with h | h | h <;> simp [h]

/-- Witness for `postEnvGateRejects` at a concrete misconfigured input. -/
theorem postEnvGateRejects_witness :
    POST ⟨none, some "r", some "t", some "base"⟩ w0 0 (some "push")
      = (.ok ⟨500, .errorObj "Environment variables not set correctly."⟩, [])
    ∧ (notionUpdateApiUrl ⟨none, some "r", some "t", some "base"⟩).isEmpty = false :=
  postEnvGateRejects ⟨none, some "r", some "t", some "base"⟩ w0 0 (some "push")
    (Or.inl (by decide))

/-- C2: when `BASE_URL` is unset while owner, repository name and token are
set and non-empty, the downstream URL interpolates to the non-empty string
"undefined/api/updatenotioncalendar", so `POST` on a push event passes the
gate, issues the commit-list request, and does not produce the
misconfiguration behaviour (error body with zero outbound calls). -/
theorem postBaseUrlUnsetPasses (env : Env) (w : World) (now : Int)
    (hb : env.BASE_URL = none)
    (ho : optFalsy env.GITHUB_REPO_OWNER = false)
    (hr : optFalsy env.GITHUB_REPO_NAME = false)
    (ht : optFalsy env.GITHUB_TOKEN = false) :
    notionUpdateApiUrl env = "undefined/api/updatenotioncalendar"
    ∧ (∃ rest, (POST env w now (some "push")).2
        = OutCall.commitListCall (commitsUrl env) (getISOTimeFiveMinutesAgo now) :: rest)
    ∧ POST env w now (some "push")
        ≠ (.ok ⟨500, .errorObj "Environment variables not set correctly."⟩, []) := by
  obtain ⟨rest, hrest⟩ := POST_push_trace_head env w now ho hr ht
  refine ⟨by rw [notionUpdateApiUrl, hb]; rfl, ⟨rest, hrest⟩, ?_⟩
  intro hcontra
  have h2 : (POST env w now (some "push")).2 = [] := by rw [hcontra]
  rw [hrest] at h2
  exact List.cons_ne_nil _ _ h2

/-- Witness for `postBaseUrlUnsetPasses` at a concrete environment. -/
theorem postBaseUrlUnsetPasses_witness :
    notionUpdateApiUrl ⟨some "o", some "r", some "t", none⟩
        = "undefined/api/updatenotioncalendar"
    ∧ (∃ rest, (POST ⟨some "o", some "r", some "t", none⟩ w0 0 (some "push")).2
        = OutCall.commitListCall (commitsUrl ⟨some "o", some "r", some "t", none⟩)
            (getISOTimeFiveMinutesAgo 0) :: rest)
    ∧ POST ⟨some "o", some "r", some "t", none⟩ w0 0 (some "push")
        ≠ (.ok ⟨500, .errorObj "Environment variables not set correctly."⟩, []) :=
  postBaseUrlUnsetPasses ⟨some "o", some "r", some "t", none⟩ w0 0 rfl
    (by decide) (by decide) (by decide)

/-- If every element of a mapped list is `ok`, collecting succeeds with the
mapped values, in order. -/
theorem collectExcept_map_ok {ε α β : Type} (f : α → Except ε β) (g : α → β)
    (l : List α) (h : ∀ x ∈ l, f x = .ok (g x)) :
    collectExcept (l.map f) = .ok (l.map g) := by
  induction l with
  | nil => rfl
  | cons a as ih =>
    have ha := h a (List.mem_cons_self a as)
    have has : ∀ x ∈ as, f x = .ok (g x) := fun x hx => h x (List.mem_cons_of_mem a hx)
    simp [collectExcept, ha, ih has]

/-- If any element of a mapped list fails, collecting fails. -/
theorem collectExcept_error_of_mem {ε α β : Type} (f : α → Except ε β) (l : List α)
    (x : α) (hx : x ∈ l) (e : ε) (he : f x = .error e) :
    ∃ e2, collectExcept (l.map f) = .error e2 := by
  induction l with
  | nil => cases hx
  | cons a as ih =>
    cases List.mem_cons.mp hx with
    | inl h => subst h; exact ⟨e, by simp [collectExcept, he]⟩
    | inr h =>
      cases hfa : f a with
      | error e2 => exact ⟨e2, by simp [collectExcept, hfa]⟩
      | ok v =>
        obtain ⟨e2, he2⟩ := ih h
        exact ⟨e2, by simp [collectExcept, hfa, he2]⟩

/-- `updateCommit` makes exactly one outbound call, the downstream POST of
the given commit list, whatever the downstream outcome. -/
theorem updateCommit_trace (env : Env) (w : World) (l : List CommitDetail) :
    (updateCommit env w l).2 = [OutCall.notionPostCall (notionUpdateApiUrl env) l] := by
  unfold updateCommit
  cases hnp : w.notionPost with
  | ok data => rfl
  | error e => cases e <;> rfl

/-- On the push path with a successful commit list and all detail fetches
succeeding, `getCommit` returns the formatted details in stub order, with
the commit-list call followed by one detail call per stub. -/
theorem getCommit_push_ok (env : Env) (w : World) (now : Int)
    (stubs : List CommitStub) (details : CommitStub → CommitDetailRaw)
    (hcl : w.commitList = .ok stubs)
    (hdet : ∀ s ∈ stubs, w.commitDetail s.sha = .ok (details s)) :
    getCommit env w now true
      = (.ok (.inl (stubs.map fun s => formatDetail (details s))),
         OutCall.commitListCall (commitsUrl env) (getISOTimeFiveMinutesAgo now)
           :: stubs.map fun s => OutCall.commitDetailCall (commitDetailUrl env s.sha)) := by
  have hfd : collectExcept (stubs.map fun s => (w.commitDetail s.sha).map formatDetail)
      = .ok (stubs.map fun s => formatDetail (details s)) :=
    collectExcept_map_ok _ _ stubs (fun x hx => by rw [hdet x hx]; rfl)
  unfold getCommit fetchDetails
  rw [hcl]
  simp [hfd]
  rfl

/-- In branch-only mode with both upstream calls succeeding, `getCommit`
returns the branch names in upstream order, with the commit-list call made
first and then the branches call. -/
theorem getCommit_branch_ok (env : Env) (w : World) (now : Int)
    (stubs : List CommitStub) (bs : List BranchInfo)
    (hcl : w.commitList = .ok stubs) (hbr : w.branchList = .ok bs) :
    getCommit env w now false
      = (.ok (.inr ⟨bs.map (·.name)⟩),
         [OutCall.commitListCall (commitsUrl env) (getISOTimeFiveMinutesAgo now),
          OutCall.branchListCall (branchesUrl env)]) := by
  unfold getCommit
  rw [hcl]
  simp [hbr]

/-- With the gate passing, `POST` on a push event with a successful fetch
forwards the fetched list and combines the traces. -/
theorem POST_push_ok (env : Env) (w : World) (now : Int)
    (ho : optFalsy env.GITHUB_REPO_OWNER = false)
    (hr : optFalsy env.GITHUB_REPO_NAME = false)
    (ht : optFalsy env.GITHUB_TOKEN = false)
    (r : List CommitDetail ⊕ BranchOnlyResult) (calls : List OutCall)
    (hg : getCommit env w now true = (.ok r, calls)) :
    POST env w now (some "push")
      = (.ok (updateCommit env w (castToDetails r)).1,
         calls ++ (updateCommit env w (castToDetails r)).2) := by
  unfold POST
  simp [ho, hr, ht, notionUpdateApiUrl_isEmpty_false env, hg]

/-- With the gate passing, `POST` on a push event with a failing fetch
propagates the failure (an unhandled rejection) with the partial trace. -/
theorem POST_push_err (env : Env) (w : World) (now : Int)
    (ho : optFalsy env.GITHUB_REPO_OWNER = false)
    (hr : optFalsy env.GITHUB_REPO_NAME = false)
    (ht : optFalsy env.GITHUB_TOKEN = false)
    (e : FetchError) (calls : List OutCall)
    (hg : getCommit env w now true = (.error e, calls)) :
    POST env w now (some "push") = (.error e, calls) := by
  unfold POST
  simp [ho, hr, ht, notionUpdateApiUrl_isEmpty_false env, hg]

/-- On the push path, `getCommit` can never produce the branch-only shape,
so the TypeScript cast in `POST` is sound. -/
theorem getCommit_true_not_inr (env : Env) (w : World) (now : Int)
    (b : BranchOnlyResult) : (getCommit env w now true).1 ≠ .ok (.inr b) := by
  unfold getCommit
  cases hcl : w.commitList with
  | error e => simp
  | ok commits =>
    cases h2 : (fetchDetails env w commits).1 with
    | error e => simp [h2, Except.map]
    | ok v => simp [h2, Except.map]

/-- A commit-list failure makes the whole fetch fail with that error. -/
theorem getCommit_commitList_err (env : Env) (w : World) (now : Int)
    (e : FetchError) (b : Bool) (hcl : w.commitList = .error e) :
    getCommit env w now b
      = (.error e, [OutCall.commitListCall (commitsUrl env) (getISOTimeFiveMinutesAgo now)]) := by
  unfold getCommit
  rw [hcl]

/-- A single detail-fetch failure makes the whole detail fetch fail. -/
theorem getCommit_detail_err (env : Env) (w : World) (now : Int)
    (stubs : List CommitStub) (s : CommitStub) (e : FetchError)
    (hcl : w.commitList = .ok stubs) (hs : s ∈ stubs)
    (he : w.commitDetail s.sha = .error e) :
    ∃ e2, (getCommit env w now true).1 = .error e2 := by
  obtain ⟨e2, h2⟩ := collectExcept_error_of_mem
    (fun s => (w.commitDetail s.sha).map formatDetail) stubs s hs e
    (by simp [he, Except.map])
  refine ⟨e2, ?_⟩
  unfold getCommit fetchDetails
  rw [hcl]
  simp only [Except.map] at h2
  simp [h2, Except.map]

/-- A fixed well-configured environment used for concrete evaluations. -/
def env1 : Env := ⟨some "o", some "r", some "t", some "https://n"⟩

/-- A concrete GitHub detail response for SHA "a1". -/
def rawA : CommitDetailRaw :=
  ⟨"a1", ⟨⟨"alice", "2024-01-01T00:00:00Z"⟩, "first"⟩, [⟨"f.txt", 1, 0, 1, none⟩]⟩

/-- A concrete GitHub detail response for SHA "b2". -/
def rawB : CommitDetailRaw :=
  ⟨"b2", ⟨⟨"bob", "2024-01-02T00:00:00Z"⟩, "second"⟩, []⟩

/-- The per-stub detail map matching `wPush`. -/
def detailsFn : CommitStub → CommitDetailRaw :=
  fun s => if s.sha = "a1" then rawA else rawB

/-- A network environment with two commits, two branches, and a healthy
downstream endpoint. -/
def wPush : World :=
  { commitList := .ok [⟨"a1"⟩, ⟨"b2"⟩]
    commitDetail := fun sha => if sha = "a1" then .ok rawA else .ok rawB
    branchList := .ok [⟨"main"⟩, ⟨"dev"⟩]
    notionPost := .ok "notion-ok" }

/-- C3: on a push event with N commit stubs whose detail fetches all
succeed, the forwarder receives exactly N formatted commit details, the
i-th built from the i-th stub, after one commit-list call and one detail
call per stub in stub order. -/
theorem postPushForwardsInOrder (env : Env) (w : World) (now : Int)
    (stubs : List CommitStub) (details : CommitStub → CommitDetailRaw)
    (ho : optFalsy env.GITHUB_REPO_OWNER = false)
    (hr : optFalsy env.GITHUB_REPO_NAME = false)
    (ht : optFalsy env.GITHUB_TOKEN = false)
    (hcl : w.commitList = .ok stubs)
    (hdet : ∀ s ∈ stubs, w.commitDetail s.sha = .ok (details s)) :
    (POST env w now (some "push")).2
      = OutCall.commitListCall (commitsUrl env) (getISOTimeFiveMinutesAgo now)
        :: (stubs.map fun s => OutCall.commitDetailCall (commitDetailUrl env s.sha))
        ++ [OutCall.notionPostCall (notionUpdateApiUrl env)
             (stubs.map fun s => formatDetail (details s))]
    ∧ (stubs.map fun s => formatDetail (details s)).length = stubs.length
    ∧ ∀ i (hi : i < stubs.length),
        (stubs.map fun s => formatDetail (details s)).get ⟨i, by simpa using hi⟩
          = formatDetail (details (stubs.get ⟨i, hi⟩)) := by
  have hg := getCommit_push_ok env w now stubs details hcl hdet
  have hp := POST_push_ok env w now ho hr ht _ _ hg
  refine ⟨?_, by simp, by intro i hi; simp⟩
  rw [hp]
  simp [castToDetails, updateCommit_trace]

/-- Witness for `postPushForwardsInOrder` on a concrete two-commit push. -/
theorem postPushForwardsInOrder_witness :
    (POST env1 wPush 0 (some "push")).2
      = OutCall.commitListCall (commitsUrl env1) (getISOTimeFiveMinutesAgo 0)
        :: (([⟨"a1"⟩, ⟨"b2"⟩] : List CommitStub).map
              fun s => OutCall.commitDetailCall (commitDetailUrl env1 s.sha))
        ++ [OutCall.notionPostCall (notionUpdateApiUrl env1)
             (([⟨"a1"⟩, ⟨"b2"⟩] : List CommitStub).map fun s => formatDetail (detailsFn s))]
    ∧ (([⟨"a1"⟩, ⟨"b2"⟩] : List CommitStub).map fun s => formatDetail (detailsFn s)).length
        = ([⟨"a1"⟩, ⟨"b2"⟩] : List CommitStub).length
    ∧ ∀ i (hi : i < ([⟨"a1"⟩, ⟨"b2"⟩] : List CommitStub).length),
        (([⟨"a1"⟩, ⟨"b2"⟩] : List CommitStub).map fun s => formatDetail (detailsFn s)).get
            ⟨i, by simpa using hi⟩
          = formatDetail (detailsFn (([⟨"a1"⟩, ⟨"b2"⟩] : List CommitStub).get ⟨i, hi⟩)) :=
  postPushForwardsInOrder env1 wPush 0 [⟨"a1"⟩, ⟨"b2"⟩] detailsFn
    (by decide) (by decide) (by decide) rfl (by decide)

/-- C4: on the push path, a commit-list failure or any single detail-fetch
failure is fatal for the whole fetch with no partial result, and the error
escapes `POST` unhandled instead of becoming a structured response. -/
theorem postPushFetchFailureUnhandled (env : Env) (w : World) (now : Int)
    (ho : optFalsy env.GITHUB_REPO_OWNER = false)
    (hr : optFalsy env.GITHUB_REPO_NAME = false)
    (ht : optFalsy env.GITHUB_TOKEN = false)
    (h : (∃ e, w.commitList = .error e)
      ∨ ∃ stubs s, w.commitList = .ok stubs ∧ s ∈ stubs
          ∧ ∃ e, w.commitDetail s.sha = .error e) :
    ∃ e2, (POST env w now (some "push")).1 = .error e2 := by
  rcases h with ⟨e, he⟩ | ⟨stubs, s, hcl, hs, e, he⟩
  · exact ⟨e, by rw [POST_push_err env w now ho hr ht e _
      (getCommit_commitList_err env w now e true he)]⟩
  · obtain ⟨e2, h2⟩ := getCommit_detail_err env w now stubs s e hcl hs he
    cases hg : getCommit env w now true with
    | mk res calls =>
      rw [hg] at h2
      cases res with
      | ok r => exact absurd h2 (by simp)
      | error e3 =>
        have h4 : e3 = e2 := by simpa using h2
        subst h4
        exact ⟨e3, by rw [POST_push_err env w now ho hr ht e3 calls hg]⟩

/-- A network environment in which every commit-detail fetch fails. -/
def wDetailErr : World :=
  { wPush with commitDetail := fun _ => .error (.networkError "boom") }

/-- Witness for `postPushFetchFailureUnhandled` with one failing detail fetch. -/
theorem postPushFetchFailureUnhandled_witness :
    ∃ e2, (POST env1 wDetailErr 0 (some "push")).1 = .error e2 :=
  postPushFetchFailureUnhandled env1 wDetailErr 0 (by decide) (by decide) (by decide)
    (Or.inr ⟨[⟨"a1"⟩, ⟨"b2"⟩], ⟨"a1"⟩, rfl, by decide, ⟨.networkError "boom", rfl⟩⟩)

/-- C5: on a push whose fetch succeeds, a downstream HTTP error response is
relayed with its exact status and status text as the error body, and any
response-less downstream failure yields a generic 500. -/
theorem postPushDownstreamErrorRelayed (env : Env) (w : World) (now : Int)
    (stubs : List CommitStub) (details : CommitStub → CommitDetailRaw)
    (ho : optFalsy env.GITHUB_REPO_OWNER = false)
    (hr : optFalsy env.GITHUB_REPO_NAME = false)
    (ht : optFalsy env.GITHUB_TOKEN = false)
    (hcl : w.commitList = .ok stubs)
    (hdet : ∀ s ∈ stubs, w.commitDetail s.sha = .ok (details s)) :
    (∀ st stText, w.notionPost = .error (.httpError st stText) →
        (POST env w now (some "push")).1 = .ok ⟨st, .errorObj stText⟩)
    ∧ (∀ msg, w.notionPost = .error (.networkError msg) →
        (POST env w now (some "push")).1 = .ok ⟨500, .errorObj "Internal Server Error"⟩) := by
  have hg := getCommit_push_ok env w now stubs details hcl hdet
  have hp := POST_push_ok env w now ho hr ht _ _ hg
  constructor
  · intro st stText hnp
    rw [hp]
    simp [updateCommit, hnp]
  · intro msg hnp
    rw [hp]
    simp [updateCommit, hnp]

/-- A network environment whose downstream endpoint answers HTTP 429. -/
def wHttpErr : World :=
  { wPush with notionPost := .error (.httpError 429 "Too Many Requests") }

/-- Witness for `postPushDownstreamErrorRelayed` on a concrete 429 world. -/
theorem postPushDownstreamErrorRelayed_witness :
    (∀ st stText, wHttpErr.notionPost = .error (.httpError st stText) →
        (POST env1 wHttpErr 0 (some "push")).1 = .ok ⟨st, .errorObj stText⟩)
    ∧ (∀ msg, wHttpErr.notionPost = .error (.networkError msg) →
        (POST env1 wHttpErr 0 (some "push")).1
          = .ok ⟨500, .errorObj "Internal Server Error"⟩) :=
  postPushDownstreamErrorRelayed env1 wHttpErr 0 [⟨"a1"⟩, ⟨"b2"⟩] detailsFn
    (by decide) (by decide) (by decide) rfl (by decide)

/-- C6: on a getBranch event with both upstream calls succeeding, the
response is status 200 with exactly the upstream branch names in upstream
order, and the downstream forwarder is never invoked. -/
theorem postGetBranchReturnsBranches (env : Env) (w : World) (now : Int)
    (stubs : List CommitStub) (bs : List BranchInfo)
    (ho : optFalsy env.GITHUB_REPO_OWNER = false)
    (hr : optFalsy env.GITHUB_REPO_NAME = false)
    (ht : optFalsy env.GITHUB_TOKEN = false)
    (hcl : w.commitList = .ok stubs) (hbr : w.branchList = .ok bs) :
    POST env w now (some "getBranch")
      = (.ok ⟨200, .branchesObj (bs.map (·.name))⟩,
         [OutCall.commitListCall (commitsUrl env) (getISOTimeFiveMinutesAgo now),
          OutCall.branchListCall (branchesUrl env)])
    ∧ ∀ u b, OutCall.notionPostCall u b ∉ (POST env w now (some "getBranch")).2 := by
  have hg := getCommit_branch_ok env w now stubs bs hcl hbr
  have hp : POST env w now (some "getBranch")
      = (.ok ⟨200, .branchesObj (bs.map (·.name))⟩,
         [OutCall.commitListCall (commitsUrl env) (getISOTimeFiveMinutesAgo now),
          OutCall.branchListCall (branchesUrl env)]) := by
    unfold POST
    simp [ho, hr, ht, notionUpdateApiUrl_isEmpty_false env, hg]
  refine ⟨hp, ?_⟩
  intro u b
  rw [hp]
  simp

/-- Witness for `postGetBranchReturnsBranches` on a concrete branch list. -/
theorem postGetBranchReturnsBranches_witness :
    POST env1 wPush 0 (some "getBranch")
      = (.ok ⟨200, .branchesObj (([⟨"main"⟩, ⟨"dev"⟩] : List BranchInfo).map (·.name))⟩,
         [OutCall.commitListCall (commitsUrl env1) (getISOTimeFiveMinutesAgo 0),
          OutCall.branchListCall (branchesUrl env1)])
    ∧ ∀ u b, OutCall.notionPostCall u b ∉ (POST env1 wPush 0 (some "getBranch")).2 :=
  postGetBranchReturnsBranches env1 wPush 0 [⟨"a1"⟩, ⟨"b2"⟩] [⟨"main"⟩, ⟨"dev"⟩]
    (by decide) (by decide) (by decide) rfl rfl

/-- C7: on a fully successful push, the response is status 200 with the
confirmation message, the downstream response body, and the forwarded
commit list echoed back unchanged (the same list sent to the forwarder). -/
theorem postPushSuccessResponse (env : Env) (w : World) (now : Int)
    (stubs : List CommitStub) (details : CommitStub → CommitDetailRaw) (data : String)
    (ho : optFalsy env.GITHUB_REPO_OWNER = false)
    (hr : optFalsy env.GITHUB_REPO_NAME = false)
    (ht : optFalsy env.GITHUB_TOKEN = false)
    (hcl : w.commitList = .ok stubs)
    (hdet : ∀ s ∈ stubs, w.commitDetail s.sha = .ok (details s))
    (hnp : w.notionPost = .ok data) :
    (POST env w now (some "push")).1
      = .ok ⟨200, .pushSuccessObj "Commits processed and sent to Notion API" data
          (stubs.map fun s => formatDetail (details s))⟩
    ∧ OutCall.notionPostCall (notionUpdateApiUrl env)
        (stubs.map fun s => formatDetail (details s)) ∈ (POST env w now (some "push")).2 := by
  have hg := getCommit_push_ok env w now stubs details hcl hdet
  have hp := POST_push_ok env w now ho hr ht _ _ hg
  rw [hp]
  constructor
  · simp [updateCommit, hnp, castToDetails]
  · simp [updateCommit_trace, castToDetails]

/-- Witness for `postPushSuccessResponse` on a concrete successful push. -/
theorem postPushSuccessResponse_witness :
    (POST env1 wPush 0 (some "push")).1
      = .ok ⟨200, .pushSuccessObj "Commits processed and sent to Notion API" "notion-ok"
          (([⟨"a1"⟩, ⟨"b2"⟩] : List CommitStub).map fun s => formatDetail (detailsFn s))⟩
    ∧ OutCall.notionPostCall (notionUpdateApiUrl env1)
        (([⟨"a1"⟩, ⟨"b2"⟩] : List CommitStub).map fun s => formatDetail (detailsFn s))
        ∈ (POST env1 wPush 0 (some "push")).2 :=
  postPushSuccessResponse env1 wPush 0 [⟨"a1"⟩, ⟨"b2"⟩] detailsFn "notion-ok"
    (by decide) (by decide) (by decide) rfl (by decide) rfl

/-- C8: with the configuration gate passing, any event-type header other
than "push" or "getBranch" (including empty or missing) yields status 400
with the unsupported-event body and no outbound calls. -/
theorem postUnsupportedEvent (env : Env) (w : World) (now : Int) (ev : Option String)
    (ho : optFalsy env.GITHUB_REPO_OWNER = false)
    (hr : optFalsy env.GITHUB_REPO_NAME = false)
    (ht : optFalsy env.GITHUB_TOKEN = false)
    (hpu : ev ≠ some "push") (hgb : ev ≠ some "getBranch") :
    POST env w now ev = (.ok ⟨400, .messageObj "Event not supported"⟩, []) := by
  unfold POST
  simp [ho, hr, ht, notionUpdateApiUrl_isEmpty_false env, hpu, hgb]

/-- Witness for `postUnsupportedEvent` on the "ping" event. -/
theorem postUnsupportedEvent_witness :
    POST env1 wPush 0 (some "ping")
      = (.ok ⟨400, .messageObj "Event not supported"⟩, []) :=
  postUnsupportedEvent env1 wPush 0 (some "ping")
    (by decide) (by decide) (by decide) (by decide) (by decide)

/-- C9: in branch-only mode the fetcher still performs the commit-list call
and only then the branches call, and the commit-list result is discarded:
replacing it with any other stub list leaves the returned branch list
unchanged. -/
theorem getCommitBranchModeCommitListFirst (env : Env) (w : World) (now : Int)
    (stubs : List CommitStub) (bs : List BranchInfo)
    (hcl : w.commitList = .ok stubs) (hbr : w.branchList = .ok bs) :
    getCommit env w now false
      = (.ok (.inr ⟨bs.map (·.name)⟩),
         [OutCall.commitListCall (commitsUrl env) (getISOTimeFiveMinutesAgo now),
          OutCall.branchListCall (branchesUrl env)])
    ∧ ∀ stubs2 : List CommitStub,
        (getCommit env { w with commitList := .ok stubs2 } now false).1
          = .ok (.inr ⟨bs.map (·.name)⟩) := by
  refine ⟨getCommit_branch_ok env w now stubs bs hcl hbr, ?_⟩
  intro stubs2
  rw [getCommit_branch_ok env { w with commitList := .ok stubs2 } now stubs2 bs rfl hbr]

/-- Witness for `getCommitBranchModeCommitListFirst` on a concrete world. -/
theorem getCommitBranchModeCommitListFirst_witness :
    getCommit env1 wPush 0 false
      = (.ok (.inr ⟨([⟨"main"⟩, ⟨"dev"⟩] : List BranchInfo).map (·.name)⟩),
         [OutCall.commitListCall (commitsUrl env1) (getISOTimeFiveMinutesAgo 0),
          OutCall.branchListCall (branchesUrl env1)])
    ∧ ∀ stubs2 : List CommitStub,
        (getCommit env1 { wPush with commitList := .ok stubs2 } 0 false).1
          = .ok (.inr ⟨([⟨"main"⟩, ⟨"dev"⟩] : List BranchInfo).map (·.name)⟩) :=
  getCommitBranchModeCommitListFirst env1 wPush 0 [⟨"a1"⟩, ⟨"b2"⟩] [⟨"main"⟩, ⟨"dev"⟩]
    rfl rfl

/-- C10: every invocation of the fetcher sends, in its first outbound call,
a "since" parameter equal to the current time minus exactly 300000
milliseconds, rendered by the ISO-8601 UTC formatter. -/
theorem getCommitSinceFiveMinutes (env : Env) (w : World) (now : Int)
    (includeDetails : Bool) :
    (∃ rest, (getCommit env w now includeDetails).2
      = OutCall.commitListCall (commitsUrl env) (toISOString (now - 300000)) :: rest)
    ∧ getISOTimeFiveMinutesAgo now = toISOString (now - 300000) := by
  have h5 : now - 5 * 60 * 1000 = now - 300000 := by norm_num
  have h := getCommit_trace_head env w now includeDetails
  rw [getISOTimeFiveMinutesAgo, h5] at h
  exact ⟨h, by rw [getISOTimeFiveMinutesAgo, h5]⟩
